import Mathlib

/-!
Shallow embedding of the route handlers of `app/api/routes.py` (a Flask REST
API over learning resources, mirrored into an Algolia search index) together
with the parts of the error-handling and persistence behaviour the handlers
observe.  Pure data is translated directly; the relational session and the
external search index are modelled by explicit state passing plus outcome
parameters for the externally-decided events (commit success / integrity
error, Algolia reachability).
-/

namespace RApi

/-- A JSON scalar value as it appears in request payloads.  `create_resource`
passes `json.get('paid')` through unchanged, so the resource's `paid` slot can
hold a boolean, a string, or null. -/
inductive JVal where
  | jnull
  | jbool (b : Bool)
  | jstr (s : String)
deriving Repr, DecidableEq

/-- Python's `json.get(k)`: absent keys and explicit nulls both read as null. -/
def jsonGet (o : Option JVal) : JVal := o.getD JVal.jnull

/-- A persisted Language row (`app.models.Language`): integer id plus name. -/
structure Language where
  id : Nat
  name : String
deriving Repr, DecidableEq

/-- A persisted Category row (`app.models.Category`): integer id plus name. -/
structure Category where
  id : Nat
  name : String
deriving Repr, DecidableEq

/-- Result of resolving one supplied language name in `get_attributes`:
either an existing row reused, or a brand-new unsaved `Language(name=...)`. -/
inductive RLang where
  | found (l : Language)
  | fresh (name : String)
deriving Repr, DecidableEq

/-- Name carried by a resolved language. -/
def RLang.lname : RLang → String
  | .found l => l.name
  | .fresh n => n

/-- Result of resolving the supplied category in `get_attributes`: either an
existing row, or a new unsaved `Category(name=json.get('category'))` — whose
name is `none` when the payload had no category key. -/
inductive RCat where
  | found (c : Category)
  | fresh (name : Option String)
deriving Repr, DecidableEq

/-- A persisted API `Key` row: owner email plus opaque key value. -/
structure Key where
  email : String
  value : String
deriving Repr, DecidableEq

/-- A Resource row as the handlers see it.  `paid` holds the raw value the
handler assigned (see `create_resource`: no coercion happens there), `notes`
likewise. -/
structure Resource where
  id : Nat
  name : Option String
  url : Option String
  category : RCat
  languages : List RLang
  paid : JVal
  notes : JVal
  upvotes : Nat
  downvotes : Nat
  times_clicked : Nat
deriving Repr, DecidableEq

/-- The relational store visible to the handlers. -/
structure DB where
  languages : List Language
  categories : List Category
  resources : List Resource
  keys : List Key
  next_id : Nat
deriving Repr, DecidableEq

/-- A request payload after JSON parsing.  For `name`, `url`, `category` and
`languages` only the value of `json.get(k)` is ever used by the handlers, so
they are stored as that value (`none` = absent or null).  For `paid` and
`notes` the handlers test `k in json`, so key presence is tracked: `none`
means the key is absent, `some v` means present with value `v` (possibly
null). -/
structure Payload where
  name : Option String
  url : Option String
  category : Option String
  languages : Option (List String)
  paid : Option JVal
  notes : Option JVal
deriving Repr, DecidableEq

/-- ASCII lowercase of a string, character by character — the embedding of
Python's `str.lower()` on the ASCII data these handlers compare. -/
def lowerStr (s : String) : String := String.mk (s.data.map Char.toLower)

/-- Whitespace stripped from both ends — the embedding of Python's
`str.strip()`. -/
def trimStr (s : String) : String :=
  String.mk
    (((s.data.dropWhile Char.isWhitespace).reverse.dropWhile
      Char.isWhitespace).reverse)

/-- Modelled from the spec: `Language.key()` from the absent `app/models.py`,
the "unique name (case-insensitive lookup key)" used to build
`language_dict = {l.key(): l for l in languages_list}`. -/
def langKey (l : Language) : String := lowerStr l.name

/-- Modelled from the spec: `Category.key()` from the absent `app/models.py`,
the case-insensitive lookup key for `category_dict`. -/
def catKey (c : Category) : String := lowerStr c.name

/-- Lookup in the dict comprehension `{l.key(): l}`: on duplicate keys the
later entry wins, hence the search over the reversed list. -/
def languageDictGet (ls : List Language) (k : String) : Option Language :=
  ls.reverse.find? (fun l => langKey l == k)

/-- Lookup in `{c.key(): c}`, later entries winning. -/
def categoryDictGet (cs : List Category) (k : String) : Option Category :=
  cs.reverse.find? (fun c => catKey c == k)

/-- `get_attributes(json)` of `routes.py`: for each entry of
`json.get('languages') or []` take `language_dict.get(lang)` (note: the raw
`lang`, not a normalised form) or else a new unsaved `Language(name=lang)`;
for the category, `category_dict.get(json.get('category'),
Category(name=json.get('category')))` — a `None` category value never matches
the string keys of the dict, so it yields a fresh `Category(name=None)`. -/
def get_attributes (db : DB) (p : Payload) : List RLang × RCat :=
  let langs := (p.languages.getD []).map (fun lang =>
    match languageDictGet db.languages lang with
    | some l => RLang.found l
    | none => RLang.fresh lang)
  let categ :=
    match p.category with
    | none => RCat.fresh none
    | some c =>
      match categoryDictGet db.categories c with
      | some cat => RCat.found cat
      | none => RCat.fresh (some c)
  (langs, categ)

/-- Outcome of `db.session.commit()`, decided by the out-of-scope relational
engine: success, an `IntegrityError`, or any other exception. -/
inductive CommitResult where
  | ok
  | integrityError
  | otherError
deriving Repr, DecidableEq

/-- Outcome of an Algolia index call (`index.save_object` /
`index.partial_update_object`): success, an
`AlgoliaUnreachableHostException`/`AlgoliaException`, or any other
exception. -/
inductive IndexResult where
  | ok
  | algoliaError
  | otherError
deriving Repr, DecidableEq

/-- What a write handler returns: a success envelope carrying the serialized
resource, a 422, a 500, or a redirect to /404 — each paired with the
relational state after the request (errors before commit leave it unchanged;
the teardown handler rolls back failed sessions). -/
inductive HandlerResult where
  | success (r : Resource) (db : DB)
  | unprocessable (db : DB)
  | serverError (db : DB)
  | notFound (db : DB)
deriving Repr, DecidableEq

/-- Bool test for the success envelope. -/
def HandlerResult.isSuccess : HandlerResult → Bool
  | .success _ _ => true
  | _ => false

/-- The `paid` field of the returned resource, when the response is a
success. -/
def returnedPaid : HandlerResult → Option JVal
  | .success r _ => some r.paid
  | _ => none

/-- `create_resource(json, db)` of `routes.py`.  The new `Resource` is built
from raw `json.get` values — in particular `paid=json.get('paid')` with no
string-to-bool conversion.  The `try` block covers add/commit and
`index.save_object`; Algolia exceptions are caught and logged, after which
control falls through to the success return; `IntegrityError` yields 422 and
any other exception 500. -/
def create_resource (db : DB) (p : Payload) (commit : CommitResult)
    (idx : IndexResult) : HandlerResult :=
  let attrs := get_attributes db p
  let new_resource : Resource :=
    { id := db.next_id
      name := p.name
      url := p.url
      category := attrs.2
      languages := attrs.1
      paid := jsonGet p.paid
      notes := jsonGet p.notes
      upvotes := 0
      downvotes := 0
      times_clicked := 0 }
  match commit with
  | .integrityError => .unprocessable db
  | .otherError => .serverError db
  | .ok =>
    let committed : DB :=
      { db with
          resources := db.resources ++ [new_resource]
          next_id := db.next_id + 1 }
    match idx with
    | .otherError => .serverError committed
    | _ => .success new_resource committed

/-- Python truthiness of `json.get(k)` for a string-valued key: true exactly
for a present, non-empty string. -/
def truthyStr : Option String → Bool
  | some s => !(s == "")
  | none => false

/-- Python truthiness of `json.get('languages')`: a present, non-empty
list. -/
def truthyList : Option (List String) → Bool
  | some l => !l.isEmpty
  | none => false

/-- `type(paid) is str and paid.lower() in ["true","false"]` followed by
`paid = paid.lower().strip() == "true"`; other values pass through
unchanged. -/
def coercePaid (v : JVal) : JVal :=
  match v with
  | JVal.jstr s =>
    if lowerStr s == "true" || lowerStr s == "false" then
      JVal.jbool (trimStr (lowerStr s) == "true")
    else JVal.jstr s
  | _ => v

/-- The field mutations of `update_resource` on the fetched row, in source
order: `languages`, `category`, `name`, `url` guarded by truthiness of
`json.get(...)`; `paid` and `notes` guarded by key presence (`'paid' in
json`), with the string-to-bool coercion applied to `paid`. -/
def apply_update (r : Resource) (p : Payload) (attrs : List RLang × RCat) :
    Resource :=
  let r1 := if truthyList p.languages then { r with languages := attrs.1 } else r
  let r2 := if truthyStr p.category then { r1 with category := attrs.2 } else r1
  let r3 := if truthyStr p.name then { r2 with name := p.name } else r2
  let r4 := if truthyStr p.url then { r3 with url := p.url } else r3
  let r5 :=
    match p.paid with
    | some v => { r4 with paid := coercePaid v }
    | none => r4
  match p.notes with
  | some v => { r5 with notes := v }
  | none => r5

/-- `update_resource(id, json, db)` of `routes.py`: fetch the row (redirect to
/404 when absent), apply the guarded field mutations, commit, then attempt
`index.partial_update_object` in an inner `try` that swallows Algolia
exceptions before returning the success envelope; `IntegrityError` maps to
422, any other exception to 500. -/
def update_resource (db : DB) (rid : Nat) (p : Payload)
    (commit : CommitResult) (idx : IndexResult) : HandlerResult :=
  match db.resources.find? (fun r => r.id == rid) with
  | none => .notFound db
  | some r =>
    let updated := apply_update r p (get_attributes db p)
    match commit with
    | .integrityError => .unprocessable db
    | .otherError => .serverError db
    | .ok =>
      let committed : DB :=
        { db with
            resources := db.resources.map
              (fun x => if x.id == rid then updated else x) }
      match idx with
      | .otherError => .serverError committed
      | _ => .success updated committed

/-- The two vote directions accepted by `update_votes`. -/
inductive VoteDir where
  | upvotes
  | downvotes
deriving Repr, DecidableEq

/-- `update_votes(id, vote_direction)`: fetch the row (404 when absent), set
the named counter to its value plus one, commit, return the envelope. -/
def update_votes (db : DB) (rid : Nat) (dir : VoteDir) : HandlerResult :=
  match db.resources.find? (fun r => r.id == rid) with
  | none => .notFound db
  | some r =>
    let r2 :=
      match dir with
      | .upvotes => { r with upvotes := r.upvotes + 1 }
      | .downvotes => { r with downvotes := r.downvotes + 1 }
    let committed : DB :=
      { db with
          resources := db.resources.map
            (fun x => if x.id == rid then r2 else x) }
    .success r2 committed

/-- `add_click(id)`: same shape as `update_votes` for `times_clicked`. -/
def add_click (db : DB) (rid : Nat) : HandlerResult :=
  match db.resources.find? (fun r => r.id == rid) with
  | none => .notFound db
  | some r =>
    let r2 := { r with times_clicked := r.times_clicked + 1 }
    let committed : DB :=
      { db with
          resources := db.resources.map
            (fun x => if x.id == rid then r2 else x) }
    .success r2 committed

/-- What the `/apikey` handler returns: a 401 invalid-credentials payload, a
success envelope carrying the serialized key, or a 500 on unexpected
lookup/generation failure. -/
inductive ApiKeyResult where
  | invalidCredentials
  | keyOk (k : Key)
  | serverError
deriving Repr, DecidableEq

/-- Modelled from the spec: `utils.create_new_apikey(email, logger)` from the
absent `app/utils.py` — "generate and persist a new key, then return it".
The generated opaque key value is an input, the function persists the new row
and returns it. -/
def create_new_apikey (db : DB) (email : String) (generated : String) :
    Key × DB :=
  let k : Key := { email := email, value := generated }
  (k, { db with keys := db.keys ++ [k] })

/-- The `/apikey` handler of `routes.py`: verify membership via
`is_user_oc_member` (an outcome input, the service is external); on failure
return 401; otherwise `Key.query.filter_by(email=email).first()` — the first
persisted key for that email — is returned when present, else a new key is
created, persisted and returned. -/
def apikey (db : DB) (email : String) (is_oc_member : Bool)
    (generated : String) : ApiKeyResult × DB :=
  if !is_oc_member then
    (.invalidCredentials, db)
  else
    match db.keys.find? (fun k => k.email == email) with
    | some k => (.keyOk k, db)
    | none =>
      let kdb := create_new_apikey db email generated
      (.keyOk kdb.1, kdb.2)

/-- The filter list built by `search_results()` in source order.  `paid` and
`category` come from `request.args.get` (`none` = not supplied, so the
`isinstance(str)` guard fails and the clause is skipped); `languages` comes
from `request.args.getlist`, which ALWAYS returns a list (empty when the
parameter is absent), so the `isinstance(list)` guard always passes and the
parenthesized OR-group is always appended. -/
def build_filters (paid : Option String) (category : Option String)
    (languages : List String) : List String :=
  let fs : List String := []
  let fs :=
    match paid with
    | some pd =>
      if lowerStr pd == "true" then fs ++ ["paid=1"]
      else if lowerStr pd == "false" then fs ++ ["paid=0"]
      else fs
    | none => fs
  let fs :=
    match category with
    | some c => fs ++ ["category:" ++ c]
    | none => fs
  let langFs := languages.map (fun l => "languages:" ++ l)
  fs ++ ["( " ++ String.intercalate " OR " langFs ++ " )"]

/-- The `filters` string handed to `index.search`: `"AND".join(filters)` —
note: no spaces around the joining `AND`. -/
def filtersString (paid : Option String) (category : Option String)
    (languages : List String) : String :=
  String.intercalate "AND" (build_filters paid category languages)

/-- The fields of an Algolia search reply that `search_results()` reads. -/
structure AlgoliaReply where
  page : Nat
  nbPages : Nat
  hits : List String
  hitsPerPage : Nat
  nbHits : Nat
deriving Repr, DecidableEq

/-- Outcome of `index.search`: a reply, or an Algolia exception. -/
inductive SearchOutcome where
  | results (r : AlgoliaReply)
  | algoliaError
deriving Repr, DecidableEq

/-- What the `/search` handler returns. -/
inductive SearchResponse where
  | ok (hits : List String)
  | notFound
  | serverError
deriving Repr, DecidableEq

/-- The response logic of `search_results()` after the filter string is
built: an Algolia exception on the read path becomes a 500; otherwise
`page >= int(search_result['nbPages'])` redirects to /404, else the hits are
formatted and returned. -/
def search_results (page : Nat) (out : SearchOutcome) : SearchResponse :=
  match out with
  | .algoliaError => .serverError
  | .results r =>
    if r.nbPages ≤ page then .notFound
    else .ok r.hits

/-- Number of pages a paginator with `per` records per page makes of `total`
records (ceiling division). -/
def number_of_pages (total per : Nat) : Nat := (total + per - 1) / per

/-- Modelled from the spec: `utils.Paginator.paginated_data(query)` from the
absent `app/utils.py` — returns "exactly the requested page's items"
(1-indexed pages, Flask-SQLAlchemy style) and, "if the requested page is out
of range", a falsy result so that the caller signals not found. -/
def paginated_data (rs : List Resource) (page per : Nat) :
    Option (List Resource) :=
  if 1 ≤ page ∧ page ≤ number_of_pages rs.length per then
    some ((rs.drop ((page - 1) * per)).take per)
  else none

/-- What the listing pagination step of `get_resources()` produces. -/
inductive ListingResponse where
  | ok (items : List Resource)
  | notFound
deriving Repr, DecidableEq

/-- The pagination step of `get_resources()`: `if not paginated_resources:
return redirect('/404')`, else the page's items are serialized. -/
def get_resources_page (rs : List Resource) (page per : Nat) :
    ListingResponse :=
  match paginated_data rs page per with
  | none => .notFound
  | some items => .ok items

/-- The creation/last-update dates of a resource row, at the day granularity
the `updated_after` filter compares at (the handler formats the parsed date
with `strftime("%Y-%m-%d")` before filtering). -/
structure DatedResource where
  rid : Nat
  created_at : Nat
  last_updated : Nat
deriving Repr, DecidableEq

/-- Outcome of `dateutil.parser.parse` on the supplied `updated_after` string
(the parser itself is an external library): an exception, or a parsed date
(encoded as a day number). -/
inductive DateParse where
  | failed
  | parsed (d : Nat)
deriving Repr, DecidableEq

/-- What the `updated_after` portion of `get_resources()` produces. -/
inductive DateFilterOutcome where
  | ok (rs : List DatedResource)
  | unprocessable
deriving Repr, DecidableEq

/-- The `updated_after` handling of `get_resources()`: no parameter means no
filter; a parse failure, or a parsed date strictly greater than `now`, raises
inside the `try` and returns a 422 unprocessable-entity payload without
filtering; otherwise the query keeps rows with `created_at >= ua_date OR
last_updated >= ua_date`. -/
def filter_updated_after (rs : List DatedResource) (ua : Option DateParse)
    (now : Nat) : DateFilterOutcome :=
  match ua with
  | none => .ok rs
  | some .failed => .unprocessable
  | some (.parsed d) =>
    if now < d then .unprocessable
    else .ok (rs.filter (fun r => d ≤ r.created_at || d ≤ r.last_updated))

/-! Concrete fixtures used to instantiate theorems with hypotheses. -/

/-- A sample persisted resource. -/
def exRes : Resource :=
  { id := 1
    name := some "Old"
    url := some "http://x"
    category := RCat.fresh none
    languages := [RLang.fresh "python"]
    paid := JVal.jbool true
    notes := JVal.jnull
    upvotes := 3
    downvotes := 4
    times_clicked := 5 }

/-- A sample store holding `exRes`, a Language row named "python" and a
Category row named "tools". -/
def exDB : DB :=
  { languages := [{ id := 1, name := "python" }]
    categories := [{ id := 1, name := "tools" }]
    resources := [exRes]
    keys := []
    next_id := 2 }

/-- The empty payload. -/
def pEmpty : Payload :=
  { name := none, url := none, category := none, languages := none
    paid := none, notes := none }

/-! Helper lemmas. -/

/-- Successful `find?` pins the id of the row it returns. -/
theorem id_of_find? {l : List Resource} {rid : Nat} {r0 : Resource}
    (h : l.find? (fun r => r.id == rid) = some r0) : r0.id = rid := by
  have hp := List.find?_some h
  simpa using hp

/-- Replacing the rows whose id matches in place keeps `find?` pointed at the
replacement, provided the replacement keeps the id. -/
theorem find?_map_set (l : List Resource) (rid : Nat) (r0 r2 : Resource)
    (h : l.find? (fun r => r.id == rid) = some r0) (h2 : r2.id = rid) :
    (l.map (fun x => if x.id == rid then r2 else x)).find?
      (fun r => r.id == rid) = some r2 := by
  induction l with
  | nil => simp at h
  | cons a t ih =>
    by_cases ha : (a.id == rid) = true
    · rw [List.map_cons, if_pos ha, List.find?_cons_of_pos]
      simp [h2]
    · rw [List.find?_cons_of_neg _ (by simpa using ha)] at h
      rw [List.map_cons, if_neg ha,
        List.find?_cons_of_neg _ (by simpa using ha)]
      exact ih h

/-- When `find?` misses the first list entirely, appending shifts it to the
second list. -/
theorem find?_append_of_none {α : Type} (q : α → Bool) (l1 l2 : List α)
    (h : l1.find? q = none) : (l1 ++ l2).find? q = l2.find? q := by
  induction l1 with
  | nil => simp
  | cons a t ih =>
    rw [List.find?_eq_none] at h
    have ha : ¬ q a = true := h a (by simp)
    rw [List.cons_append, List.find?_cons_of_neg _ ha]
    exact ih (List.find?_eq_none.mpr (fun x hx => h x (by simp [hx])))

/-- C1: when the relational commit of a create or update succeeds and the
subsequent Algolia mirror call raises an Algolia error (unreachable host or
rejected write), the handler's response and post-state are identical to the
fully successful run: a success envelope carrying the persisted resource,
which is present in the post-state — the relational write is not rolled
back. -/
theorem algolia_failure_preserves_write (db : DB) (p : Payload) (rid : Nat)
    (r0 : Resource)
    (h : db.resources.find? (fun r => r.id == rid) = some r0) :
    create_resource db p CommitResult.ok IndexResult.algoliaError =
      create_resource db p CommitResult.ok IndexResult.ok ∧
    (create_resource db p CommitResult.ok IndexResult.algoliaError).isSuccess
      = true ∧
    (∀ r db2,
      create_resource db p CommitResult.ok IndexResult.algoliaError =
        HandlerResult.success r db2 → r ∈ db2.resources) ∧
    update_resource db rid p CommitResult.ok IndexResult.algoliaError =
      update_resource db rid p CommitResult.ok IndexResult.ok ∧
    (update_resource db rid p CommitResult.ok
      IndexResult.algoliaError).isSuccess = true ∧
    (∀ r db2,
      update_resource db rid p CommitResult.ok IndexResult.algoliaError =
        HandlerResult.success r db2 → r ∈ db2.resources) := by
  refine ⟨rfl, rfl, ?_, ?_, ?_, ?_⟩
  · intro r db2 hEq
    simp only [create_resource, HandlerResult.success.injEq] at hEq
    obtain ⟨rfl, rfl⟩ := hEq
    simp
  · simp only [update_resource, h]
  · simp only [update_resource, h, HandlerResult.isSuccess]
  · intro r db2 hEq
    simp only [update_resource, h, HandlerResult.success.injEq] at hEq
    obtain ⟨rfl, rfl⟩ := hEq
    have hmem := List.mem_of_find?_eq_some h
    have himg := List.mem_map_of_mem
      (fun x => if x.id == rid then
        apply_update r0 p (get_attributes db p) else x) hmem
    simpa [id_of_find? h] using himg

/-- C1 witness: concrete instantiation at `exDB`, resource id 1. -/
theorem algolia_failure_preserves_write_witness :
    (update_resource exDB 1 pEmpty CommitResult.ok
      IndexResult.algoliaError).isSuccess = true ∧
    (create_resource exDB pEmpty CommitResult.ok
      IndexResult.algoliaError).isSuccess = true :=
  ⟨(algolia_failure_preserves_write exDB pEmpty 1 exRes rfl).2.2.2.2.1,
   (algolia_failure_preserves_write exDB pEmpty 1 exRes rfl).2.1⟩

/-- C9: each upvote, downvote or click call on an existing resource adds
exactly 1 to the corresponding counter — for arbitrary current counter values,
so with no upper bound — and two successive upvote calls add exactly 2 (no
idempotence). -/
theorem vote_click_increment (db : DB) (rid : Nat) (r0 : Resource)
    (h : db.resources.find? (fun r => r.id == rid) = some r0) :
    (∃ db1,
      update_votes db rid VoteDir.upvotes =
        HandlerResult.success { r0 with upvotes := r0.upvotes + 1 } db1 ∧
      ∃ db2,
        update_votes db1 rid VoteDir.upvotes =
          HandlerResult.success { r0 with upvotes := r0.upvotes + 2 } db2) ∧
    (∃ db1,
      update_votes db rid VoteDir.downvotes =
        HandlerResult.success { r0 with downvotes := r0.downvotes + 1 } db1) ∧
    (∃ db1,
      add_click db rid =
        HandlerResult.success
          { r0 with times_clicked := r0.times_clicked + 1 } db1) := by
  have hid : r0.id = rid := id_of_find? h
  refine ⟨?_, ?_, ?_⟩
  · simp only [update_votes, h]
    refine ⟨_, rfl, ?_⟩
    have hfind2 := find?_map_set db.resources rid r0
      { r0 with upvotes := r0.upvotes + 1 } h hid
    simp only [update_votes, hfind2]
    exact ⟨_, rfl⟩
  · simp only [update_votes, h]
    exact ⟨_, rfl⟩
  · simp only [add_click, h]
    exact ⟨_, rfl⟩

/-- C9 witness: concrete instantiation at `exDB`, resource id 1 (counters
3/4/5): the upvote handler answers with a success envelope. -/
theorem vote_click_increment_witness :
    (update_votes exDB 1 VoteDir.upvotes).isSuccess = true := by
  obtain ⟨⟨db1, h1, _⟩, _, _⟩ := vote_click_increment exDB 1 exRes rfl
  rw [h1]
  rfl

/-- The sequential guarded mutations of `apply_update` act independently on
the six updateable fields. -/
theorem apply_update_eq (r : Resource) (p : Payload) (a : List RLang × RCat) :
    apply_update r p a =
      { r with
          languages := if truthyList p.languages then a.1 else r.languages
          category := if truthyStr p.category then a.2 else r.category
          name := if truthyStr p.name then p.name else r.name
          url := if truthyStr p.url then p.url else r.url
          paid := match p.paid with
                  | some v => coercePaid v
                  | none => r.paid
          notes := match p.notes with
                   | some v => v
                   | none => r.notes } := by
  unfold apply_update
  cases hp : p.paid <;> cases hn : p.notes <;>
    cases hl : truthyList p.languages <;> cases hc : truthyStr p.category <;>
    cases hm : truthyStr p.name <;> cases hu : truthyStr p.url <;>
    simp [hp, hn, hl, hc, hm, hu]

/-- C3 counterexample: a payload in which `languages` is present with value
`[]` leaves the stored languages untouched — `update_resource` guards the
assignment with Python truthiness of `json.get('languages')`, not key
presence, so a present-but-falsy field is not set to the submitted value. -/
theorem update_present_empty_languages_unchanged :
    (Payload.mk none none none (some []) none none).languages = some [] ∧
    update_resource exDB 1 (Payload.mk none none none (some []) none none)
      CommitResult.ok IndexResult.ok = HandlerResult.success exRes exDB ∧
    exRes.languages ≠ ([] : List RLang) := by
  refine ⟨rfl, by decide, by decide⟩

/-- C3 (amended): fields absent from the payload are unchanged; `paid` and
`notes` are set whenever their key is present (`paid` after string→bool
coercion of "true"/"false"); `name`, `url`, `category` and `languages` are
set only when the supplied value is truthy (a non-empty string / non-empty
list), to the submitted value for `name`/`url` and to the resolved
Language/Category entities for `languages`/`category`; counters and the id
are never touched by an update. -/
theorem update_partial_semantics (db : DB) (rid : Nat) (p : Payload)
    (r0 : Resource)
    (h : db.resources.find? (fun r => r.id == rid) = some r0) :
    ∃ r1 db1,
      update_resource db rid p CommitResult.ok IndexResult.ok =
        HandlerResult.success r1 db1 ∧
      r1.id = r0.id ∧
      r1.upvotes = r0.upvotes ∧
      r1.downvotes = r0.downvotes ∧
      r1.times_clicked = r0.times_clicked ∧
      (truthyList p.languages = true →
        r1.languages = (get_attributes db p).1) ∧
      (truthyList p.languages = false → r1.languages = r0.languages) ∧
      (truthyStr p.category = true → r1.category = (get_attributes db p).2) ∧
      (truthyStr p.category = false → r1.category = r0.category) ∧
      (truthyStr p.name = true → r1.name = p.name) ∧
      (truthyStr p.name = false → r1.name = r0.name) ∧
      (truthyStr p.url = true → r1.url = p.url) ∧
      (truthyStr p.url = false → r1.url = r0.url) ∧
      (∀ v, p.paid = some v → r1.paid = coercePaid v) ∧
      (p.paid = none → r1.paid = r0.paid) ∧
      (∀ v, p.notes = some v → r1.notes = v) ∧
      (p.notes = none → r1.notes = r0.notes) := by
  simp only [update_resource, h]
  refine ⟨_, _, rfl, ?_⟩
  rw [apply_update_eq]
  refine ⟨rfl, rfl, rfl, rfl, ?_, ?_, ?_, ?_, ?_, ?_, ?_, ?_, ?_, ?_, ?_, ?_⟩
  · intro hx; simp [hx]
  · intro hx; simp [hx]
  · intro hx; simp [hx]
  · intro hx; simp [hx]
  · intro hx; simp [hx]
  · intro hx; simp [hx]
  · intro hx; simp [hx]
  · intro hx; simp [hx]
  · intro v hx; simp [hx]
  · intro hx; simp [hx]
  · intro v hx; simp [hx]
  · intro hx; simp [hx]

/-- C3 witness: concrete instantiation at `exDB`, resource id 1, empty
payload: the update handler answers with a success envelope. -/
theorem update_partial_semantics_witness :
    (update_resource exDB 1 pEmpty CommitResult.ok
      IndexResult.ok).isSuccess = true := by
  obtain ⟨r1, db1, heq, _⟩ := update_partial_semantics exDB 1 pEmpty exRes rfl
  rw [heq]
  rfl

/-- C2: the payload of the spec's concrete creation scenario, with `paid`
supplied as the literal string "false". -/
def pCreateFoo : Payload :=
  { name := some "Foo"
    url := some "http://x"
    category := some "Tools"
    languages := some ["Python"]
    paid := some (JVal.jstr "false")
    notes := none }

/-- C2: `create_resource` assigns `paid=json.get('paid')` with no
string-to-bool conversion (unlike the update path), so POSTing
`paid: "false"` persists and returns the raw string, not the boolean
`false`. -/
theorem create_paid_string_uncoerced :
    returnedPaid (create_resource exDB pCreateFoo CommitResult.ok
        IndexResult.ok) = some (JVal.jstr "false") ∧
    returnedPaid (create_resource exDB pCreateFoo CommitResult.ok
        IndexResult.ok) ≠ some (JVal.jbool false) := by
  refine ⟨by decide, by decide⟩

/-- C4: `get_attributes` looks `language_dict` up with the raw submitted
name, so supplying "Python" misses the case-insensitive key of the existing
Language row named "python" and a brand-new unsaved `Language("Python")` is
constructed instead of reusing the row. -/
theorem language_lookup_misses_existing_row :
    exDB.languages = [{ id := 1, name := "python" }] ∧
    get_attributes exDB pCreateFoo =
      ([RLang.fresh "Python"], RCat.fresh (some "Tools")) := by
  refine ⟨rfl, rfl⟩

/-- C10: when the payload's category is absent, attribute resolution yields a
brand-new `Category(name=None)`; when it names no existing category key, a
brand-new `Category` with that name; and whatever `get_attributes` resolves
is exactly the category attached to a successfully created resource. -/
theorem category_fallback_fresh (db : DB) (p : Payload) :
    (p.category = none → (get_attributes db p).2 = RCat.fresh none) ∧
    (∀ c, p.category = some c → categoryDictGet db.categories c = none →
      (get_attributes db p).2 = RCat.fresh (some c)) ∧
    (∀ r db2 commit idx,
      create_resource db p commit idx = HandlerResult.success r db2 →
      r.category = (get_attributes db p).2) := by
  refine ⟨?_, ?_, ?_⟩
  · intro hc
    simp [get_attributes, hc]
  · intro c hc hmiss
    simp [get_attributes, hc, hmiss]
  · intro r db2 commit idx hEq
    cases commit with
    | integrityError => simp [create_resource] at hEq
    | otherError => simp [create_resource] at hEq
    | ok =>
      cases idx with
      | otherError => simp [create_resource] at hEq
      | ok =>
        simp only [create_resource, HandlerResult.success.injEq] at hEq
        obtain ⟨rfl, rfl⟩ := hEq
        rfl
      | algoliaError =>
        simp only [create_resource, HandlerResult.success.injEq] at hEq
        obtain ⟨rfl, rfl⟩ := hEq
        rfl

/-- C10 witness: the empty payload against `exDB` resolves to a fresh
category with name `none`. -/
theorem category_fallback_fresh_witness :
    (get_attributes exDB pEmpty).2 = RCat.fresh none :=
  (category_fallback_fresh exDB pEmpty).1 rfl

/-- C6: an `updated_after` value that fails to parse, or parses to a date
strictly in the future, yields the 422 unprocessable-entity outcome and no
filter is applied; a parseable non-future value filters to the rows whose
creation date OR last-update date is on or after the bound; no parameter
means no filter. -/
theorem updated_after_semantics (rs : List DatedResource) (d now : Nat) :
    filter_updated_after rs (some DateParse.failed) now =
      DateFilterOutcome.unprocessable ∧
    (now < d →
      filter_updated_after rs (some (DateParse.parsed d)) now =
        DateFilterOutcome.unprocessable) ∧
    (d ≤ now →
      filter_updated_after rs (some (DateParse.parsed d)) now =
        DateFilterOutcome.ok
          (rs.filter (fun r => d ≤ r.created_at || d ≤ r.last_updated)) ∧
      ∀ r, r ∈ rs.filter (fun r => d ≤ r.created_at || d ≤ r.last_updated) ↔
        (r ∈ rs ∧ (d ≤ r.created_at ∨ d ≤ r.last_updated))) ∧
    filter_updated_after rs none now = DateFilterOutcome.ok rs := by
  refine ⟨rfl, ?_, ?_, rfl⟩
  · intro hfut
    simp [filter_updated_after, hfut]
  · intro hpast
    refine ⟨?_, ?_⟩
    · simp [filter_updated_after, Nat.not_lt.mpr hpast]
    · intro r
      simp [List.mem_filter]

/-- C6 witness: a future bound (20 past now 10) is rejected with 422, a past
bound (7) filters by the created-or-updated date disjunction. -/
theorem updated_after_semantics_witness :
    filter_updated_after [⟨1, 5, 9⟩] (some (DateParse.parsed 20)) 10 =
      DateFilterOutcome.unprocessable ∧
    filter_updated_after [⟨1, 5, 9⟩] (some (DateParse.parsed 7)) 10 =
      DateFilterOutcome.ok
        (List.filter (fun r => 7 ≤ r.created_at || 7 ≤ r.last_updated)
          [⟨1, 5, 9⟩]) :=
  ⟨(updated_after_semantics [⟨1, 5, 9⟩] 20 10).2.1 (by decide),
   ((updated_after_semantics [⟨1, 5, 9⟩] 7 10).2.2.1 (by decide)).1⟩

/-- C7: issuing an API key is idempotent per email — with valid credentials,
a first call returns some key (newly persisted when absent) and a second call
against the resulting store returns the very same key, even though a
different fresh value was available for generation. -/
theorem apikey_idempotent (db : DB) (email gen1 gen2 : String) :
    ∃ k db1,
      apikey db email true gen1 = (ApiKeyResult.keyOk k, db1) ∧
      apikey db1 email true gen2 = (ApiKeyResult.keyOk k, db1) := by
  cases hfind : db.keys.find? (fun k => k.email == email) with
  | some k =>
    refine ⟨k, db, ?_, ?_⟩ <;> simp [apikey, hfind]
  | none =>
    refine ⟨⟨email, gen1⟩, { db with keys := db.keys ++ [⟨email, gen1⟩] },
      ?_, ?_⟩
    · simp [apikey, hfind, create_new_apikey]
    · have happ := find?_append_of_none (fun k => k.email == email)
        db.keys [⟨email, gen1⟩] hfind
      simp only [apikey, Bool.not_true, Bool.false_eq_true, if_false]
      rw [happ]
      simp [List.find?]

/-- C8: a requested page beyond the last available page yields the not-found
redirect (not an error response) on both the search path (Algolia page
indices, `page >= nbPages`) and the relational listing path (paginator page
out of range). -/
theorem out_of_range_page_not_found (page per : Nat) (ar : AlgoliaReply)
    (rs : List Resource) (h1 : ar.nbPages ≤ page)
    (h2 : number_of_pages rs.length per < page) :
    search_results page (SearchOutcome.results ar) = SearchResponse.notFound ∧
    get_resources_page rs page per = ListingResponse.notFound := by
  refine ⟨?_, ?_⟩
  · simp [search_results, h1]
  · simp [get_resources_page, paginated_data, Nat.not_le.mpr h2]

/-- C8 witness: page 5 of a 3-page search reply, and page 5 of an empty
relational listing with page size 2, are both not found. -/
theorem out_of_range_page_not_found_witness :
    search_results 5 (SearchOutcome.results ⟨5, 3, [], 2, 6⟩) =
      SearchResponse.notFound ∧
    get_resources_page [] 5 2 = ListingResponse.notFound :=
  out_of_range_page_not_found 5 2 ⟨5, 3, [], 2, 6⟩ [] (by decide) (by decide)

/-- C5 counterexample: with no query parameters supplied at all, the filter
expression sent to the index is `"(  )"` — an empty parenthesized languages
group — rather than being empty: the languages clause is not omitted when the
client supplied no languages, because `request.args.getlist` always returns a
list and the `isinstance(list)` guard always passes. -/
theorem empty_params_filter_not_empty :
    filtersString none none [] = "(  )" ∧
    filtersString none none [] ≠ "" := by
  refine ⟨by decide, by decide⟩

/-- The paid clause of the amended serialization contract: present exactly
when the supplied value case-insensitively equals "true" or "false". -/
def paidClause : Option String → List String
  | some pd =>
    if lowerStr pd == "true" then ["paid=1"]
    else if lowerStr pd == "false" then ["paid=0"]
    else []
  | none => []

/-- The category clause of the amended serialization contract: present
exactly when a category parameter was supplied. -/
def categoryClause : Option String → List String
  | some c => ["category:" ++ c]
  | none => []

/-- The languages group of the amended serialization contract: always
present, `( languages:<v1> OR languages:<v2> )`, empty inside when no
languages were supplied. -/
def languagesGroup (ls : List String) : String :=
  "( " ++ String.intercalate " OR " (ls.map (fun l => "languages:" ++ l))
    ++ " )"

/-- C5 (amended): the filter expression is the paid clause (`paid=1`/`paid=0`
when supplied as case-insensitive "true"/"false", omitted otherwise), then
the category clause (`category:<value>`, omitted when absent), then a
languages OR-group that is ALWAYS appended (even when no languages were
supplied), all joined with the bare string "AND". -/
theorem search_filter_serialization (paid category : Option String)
    (ls : List String) :
    filtersString paid category ls =
      String.intercalate "AND"
        (paidClause paid ++ categoryClause category ++ [languagesGroup ls]) := by
  cases paid with
  | none =>
    cases category <;>
      simp [filtersString, build_filters, paidClause, categoryClause,
        languagesGroup]
  | some pd =>
    cases category <;>
      by_cases h1 : (lowerStr pd == "true") = true <;>
        by_cases h2 : (lowerStr pd == "false") = true <;>
          simp [filtersString, build_filters, paidClause, categoryClause,
            languagesGroup, h1, h2]

end RApi
